import Mathlib

/-!
Shallow embedding of `src/app.py` (TelemetryXF1), a Streamlit dashboard that
loads Formula 1 telemetry through the FastF1 provider and renders comparative
charts.  The provider (FastF1), the plotting library and the UI framework are
external; their calls are modelled as parameters (results of type `Except Unit _`
when the call can raise).  Pandas data frames are modelled column-oriented:
a frame is a list of (column name, list of cell values); a cell value is a
null (NaN/NaT), a boolean, an integer, a rational (for floats) or a string.
-/

namespace TelemetryXF1

/-- A pandas cell value: null (NaN/NaT), bool, int, float (as a rational) or
string. -/
inductive Val where
  | vnull : Val
  | vBool : Bool → Val
  | vInt : Int → Val
  | vRat : ℚ → Val
  | vStr : String → Val
deriving DecidableEq, Repr

/-- A pandas DataFrame, column-oriented: column names with their cell lists,
in column order.  The integer row index is implicit (positions), matching the
code's use of `reset_index(drop=True)` everywhere. -/
structure Frame where
  cols : List (String × List Val)
deriving DecidableEq, Repr

/-- The frame's column names, in order (`df.columns`). -/
def Frame.colNames (f : Frame) : List String := f.cols.map (·.1)

/-- Look a column up by name (first match), `df[c]` as an `Option`. -/
def Frame.get? (f : Frame) (c : String) : Option (List Val) :=
  (f.cols.find? (fun p => p.1 == c)).map (·.2)

/-- Number of rows: length of the first column (0 for a column-less frame). -/
def Frame.nrowsF (f : Frame) : Nat :=
  match f.cols with
  | [] => 0
  | p :: _ => p.2.length

/-- `df.empty`: true when the frame has no rows or no columns. -/
def Frame.isEmptyF (f : Frame) : Bool :=
  f.cols.isEmpty || f.nrowsF == 0

/-- Well-formedness: every column has the same number of cells. -/
def Frame.wf (f : Frame) : Prop :=
  ∀ p ∈ f.cols, p.2.length = f.nrowsF

/-- Replace the cells of column `c` (`df[c] = vs`); other columns untouched. -/
def Frame.setCol (f : Frame) (c : String) (vs : List Val) : Frame :=
  ⟨f.cols.map (fun p => if p.1 == c then (p.1, vs) else p)⟩

/-- `df.copy()`: a deep copy; on this immutable model it is the frame itself. -/
def Frame.copyF (f : Frame) : Frame := f

instance {e a : Type} [DecidableEq e] [DecidableEq a] : DecidableEq (Except e a) := fun x y =>
  match x, y with
  | .error u, .error v =>
    if h : u = v then .isTrue (by rw [h]) else .isFalse (fun hc => h (Except.error.inj hc))
  | .ok u, .ok v =>
    if h : u = v then .isTrue (by rw [h]) else .isFalse (fun hc => h (Except.ok.inj hc))
  | .error _, .ok _ => .isFalse (fun hc => Except.noConfusion hc)
  | .ok _, .error _ => .isFalse (fun hc => Except.noConfusion hc)

/-- `df[c]` where a missing column raises `KeyError`: error case of `Except`. -/
def getColE (f : Frame) (c : String) : Except Unit (List Val) :=
  match f.get? c with
  | some vs => .ok vs
  | none => .error ()

/-- `df.iloc[0][c]`: first cell of column `c`; raises when the column is
missing or has no rows. -/
def ilocFirstE (f : Frame) (c : String) : Except Unit Val :=
  match f.get? c with
  | none => .error ()
  | some vs =>
    match vs.head? with
    | none => .error ()
    | some v => .ok v

/-- `pd.notna(v)`: true for every value except null (NaN/NaT). -/
def pdNotna : Val → Bool
  | .vnull => false
  | _ => true

/-- Python truthiness of a cell value (`if info["TeamName"]:`). -/
def pyTruthy : Val → Bool
  | .vnull => false
  | .vBool b => b
  | .vInt n => n != 0
  | .vRat q => q != 0
  | .vStr s => s != ""

/-- Python `str(v)` for the cell values this app stringifies (team names are
strings; the null clause follows pandas' `str(nan)`). -/
def pyStr : Val → String
  | .vnull => "nan"
  | .vBool b => if b then "True" else "False"
  | .vInt n => toString n
  | .vRat q => toString q
  | .vStr s => s

end TelemetryXF1

/-! ### Lap labels (`load_driver_laps`, lines 41-48, and the parse at 87-88)

Python strings are modelled as `List Char` here because the claims reason
about splitting and parsing the label text.  Lap numbers are the integers of
the provider's data model (`laps["LapNumber"]`); a lap's time is either the
provider's string rendering of the `LapTime` value or missing (`NaT`). -/

namespace TelemetryXF1

/-- One row of a driver's picked laps, with the fields `load_driver_laps`
touches: the lap number and the string form of `LapTime` (`none` models a
null `NaT` entry, whose `astype(str)` image is the text `NaT`, which the
subsequent `fillna("NaT")` leaves unchanged). -/
structure Lap where
  lapNumber : Nat
  lapTime : Option (List Char)
deriving DecidableEq, Repr

/-- The separator of the composite lap label: the literal `" · "`. -/
def sepChars : List Char := [' ', '·', ' ']

/-- Decimal digit characters of a natural number, most significant first:
the `astype(str)` rendering of a lap number. -/
def natToChars (n : Nat) : List Char :=
  if n = 0 then ['0'] else ((Nat.digits 10 n).map Nat.digitChar).reverse

/-- `laps["LapTime"].astype(str).fillna("NaT")` on one row: the time's string
form, or the text `NaT` for a null entry. -/
def lapTimeChars (l : Lap) : List Char :=
  match l.lapTime with
  | some s => s
  | none => ['N', 'a', 'T']

/-- `laps["LapNumber"].astype(str) + " · " + lt` on one row. -/
def mkLapLabel (l : Lap) : List Char :=
  natToChars l.lapNumber ++ sepChars ++ lapTimeChars l

/-- `load_driver_laps`: the picked laps, reindexed (implicit here), each paired
with its `LapLabel`; the label column is only added when the frame is
non-empty. -/
def loadDriverLaps (laps : List Lap) : List (Lap × List Char) :=
  if laps.isEmpty then [] else laps.map (fun l => (l, mkLapLabel l))

/-- First token of Python's `s.split(sep)` for a non-empty `sep`: the prefix
of `s` up to the first occurrence of `sep` (all of `s` when `sep` does not
occur).  This is exactly `s.split(" · ")[0]` as used at line 87. -/
def firstTok (sep : List Char) : List Char → List Char
  | [] => []
  | c :: rest =>
    if sep.isPrefixOf (c :: rest) then [] else c :: firstTok sep rest

/-- Is `c` an ASCII decimal digit? -/
def isAsciiDigit (c : Char) : Bool :=
  48 ≤ c.toNat && c.toNat ≤ 57

/-- Horner evaluation of a most-significant-first digit string. -/
def charsToNat (l : List Char) : Nat :=
  l.foldl (fun a c => 10 * a + (c.toNat - 48)) 0

/-- Python `int(s)` restricted to the unsigned-decimal case (the only inputs
the app produces): `some` of the decimal value when `s` is a non-empty string
of digits, `none` (a raised `ValueError`) otherwise.  Sign, whitespace and
underscore handling of the full builtin are omitted as unreachable here. -/
def pyIntNat (l : List Char) : Option Nat :=
  if l ≠ [] ∧ l.all isAsciiDigit then some (charsToNat l) else none

end TelemetryXF1

namespace TelemetryXF1

/-- `Nat.digitChar` maps a digit `d < 10` to the character of code `48 + d`. -/
lemma digitChar_toNat_eq : ∀ d : Nat, d < 10 → (Nat.digitChar d).toNat = 48 + d := by
  decide

/-- Every character of the decimal rendering of a natural number is an ASCII
digit. -/
lemma natToChars_all_digits (n : Nat) : ∀ c ∈ natToChars n, isAsciiDigit c = true := by
  intro c hc
  unfold natToChars at hc
  by_cases h : n = 0
  · rw [if_pos h] at hc
    simp only [List.mem_singleton] at hc
    subst hc; decide
  · rw [if_neg h] at hc
    rw [List.mem_reverse] at hc
    obtain ⟨d, hd, rfl⟩ := List.mem_map.mp hc
    have hd10 : d < 10 := Nat.digits_lt_base (by norm_num) hd
    simp only [isAsciiDigit, digitChar_toNat_eq d hd10, Bool.and_eq_true, decide_eq_true_eq]
    omega

/-- Horner evaluation of a reversed digit-character list agrees with
`Nat.ofDigits` on the underlying little-endian digits. -/
lemma charsToNat_rev_map (L : List ℕ) (h : ∀ d ∈ L, d < 10) :
    charsToNat ((L.map Nat.digitChar).reverse) = Nat.ofDigits 10 L := by
  induction L with
  | nil => simp [charsToNat, Nat.ofDigits_nil]
  | cons d L ih =>
    have hd10 : d < 10 := h d (List.mem_cons_self d L)
    have hL : ∀ x ∈ L, x < 10 := fun x hx => h x (List.mem_cons_of_mem d hx)
    have ih2 := ih hL
    simp only [charsToNat] at ih2 ⊢
    rw [List.map_cons, List.reverse_cons, List.foldl_append, List.foldl_cons, List.foldl_nil,
      ih2, Nat.ofDigits_cons, digitChar_toNat_eq d hd10]
    omega

/-- Decimal rendering followed by Horner evaluation is the identity. -/
lemma charsToNat_natToChars (n : Nat) : charsToNat (natToChars n) = n := by
  unfold natToChars
  by_cases h : n = 0
  · rw [if_pos h, h]; decide
  · rw [if_neg h, charsToNat_rev_map _ (fun d hd => Nat.digits_lt_base (by norm_num) hd)]
    exact Nat.ofDigits_digits 10 n

/-- The decimal rendering of a natural number is never the empty string. -/
lemma natToChars_ne_nil (n : Nat) : natToChars n ≠ [] := by
  unfold natToChars
  by_cases h : n = 0
  · rw [if_pos h]; exact List.cons_ne_nil _ _
  · rw [if_neg h]
    simp [Nat.digits_ne_nil_iff_ne_zero.mpr h]

/-- `int(...)` recovers a natural number from its decimal rendering. -/
lemma pyIntNat_natToChars (n : Nat) : pyIntNat (natToChars n) = some n := by
  unfold pyIntNat
  rw [if_pos, charsToNat_natToChars]
  exact ⟨natToChars_ne_nil n, List.all_eq_true.mpr (natToChars_all_digits n)⟩

/-- Splitting a string that starts with the separator yields an empty first
token. -/
lemma firstTok_sep_here (t : List Char) : firstTok sepChars (sepChars ++ t) = [] := by
  show firstTok sepChars (' ' :: ('·' :: (' ' :: t))) = []
  have hpre : sepChars.isPrefixOf (' ' :: ('·' :: (' ' :: t))) = true := by
    simp [sepChars, List.isPrefixOf]
  simp only [firstTok, hpre, if_true]

/-- The first `" · "`-token of `p ++ " · " ++ t` is `p` when `p` is made of
digits (digits never start a separator match). -/
lemma firstTok_digits (p t : List Char) (hp : ∀ c ∈ p, isAsciiDigit c = true) :
    firstTok sepChars (p ++ sepChars ++ t) = p := by
  induction p with
  | nil => simpa using firstTok_sep_here t
  | cons c p ih =>
    have hc : isAsciiDigit c = true := hp c (List.mem_cons_self c p)
    have hne : (' ' == c) = false := by
      apply beq_eq_false_iff_ne.mpr
      intro h
      have : c.toNat = 32 := by rw [← h]; decide
      simp only [isAsciiDigit, Bool.and_eq_true, decide_eq_true_eq] at hc
      omega
    have hp2 : ∀ x ∈ p, isAsciiDigit x = true := fun x hx => hp x (List.mem_cons_of_mem c hx)
    have hstep : (c :: p) ++ sepChars ++ t = c :: (p ++ sepChars ++ t) := by simp
    rw [hstep]
    have hpre : sepChars.isPrefixOf (c :: (p ++ sepChars ++ t)) = false := by
      show List.isPrefixOf (' ' :: ('·' :: (' ' :: []))) (c :: (p ++ sepChars ++ t)) = false
      simp [List.isPrefixOf, hne]
    simp only [firstTok, hpre, ih hp2]
    simp

end TelemetryXF1

namespace TelemetryXF1

/-- **C1**: every label produced by `load_driver_laps` has the form
`"<integer> · <time-or-'NaT'>"` — a digit string rendering the lap number,
the literal `" · "`, then the lap-time text (or `NaT`) — and taking the first
`" · "`-token of the label and converting it with `int` recovers that lap's
lap number exactly. -/
theorem c1_lap_label_roundtrip (laps : List Lap) (l : Lap) (lbl : List Char)
    (h : (l, lbl) ∈ loadDriverLaps laps) :
    lbl = natToChars l.lapNumber ++ sepChars ++ lapTimeChars l ∧
    (∀ c ∈ natToChars l.lapNumber, isAsciiDigit c = true) ∧
    pyIntNat (firstTok sepChars lbl) = some l.lapNumber := by
  unfold loadDriverLaps at h
  by_cases he : laps.isEmpty
  · rw [if_pos he] at h
    exact absurd h (List.not_mem_nil _)
  · rw [if_neg he] at h
    obtain ⟨l2, _, heq⟩ := List.mem_map.mp h
    injection heq with h1 h2
    subst h1
    subst h2
    refine ⟨rfl, natToChars_all_digits _, ?_⟩
    unfold mkLapLabel
    rw [firstTok_digits _ _ (natToChars_all_digits _), pyIntNat_natToChars]

/-- Instantiation of `c1_lap_label_roundtrip` on a concrete one-lap list
(lap number 12, null lap time). -/
theorem c1_lap_label_roundtrip_witness :
    ((⟨12, none⟩ : Lap), mkLapLabel ⟨12, none⟩) ∈ loadDriverLaps [⟨12, none⟩] ∧
    pyIntNat (firstTok sepChars (mkLapLabel ⟨12, none⟩)) = some 12 := by
  have hmem : ((⟨12, none⟩ : Lap), mkLapLabel ⟨12, none⟩) ∈ loadDriverLaps [⟨12, none⟩] := by
    unfold loadDriverLaps
    simp
  exact ⟨hmem, (c1_lap_label_roundtrip [⟨12, none⟩] ⟨12, none⟩ _ hmem).2.2⟩

end TelemetryXF1

/-! ### Team resolution (`_driver_team`, lines 29-39)

`session.laps.pick_driver(code)` is modelled by its result frame; the
`session.get_driver(code)` call by an `Except` value (`error` = the call
raised, caught by the bare `except`). -/

namespace TelemetryXF1

/-- Result of `session.get_driver(code)`: whether it is a `dict` (the code
checks `isinstance(info, dict)`), and its key/value entries. -/
structure DriverInfo where
  isDict : Bool
  fields : List (String × Val)
deriving DecidableEq, Repr

/-- `info[k]` as an `Option` (`none` = key absent). -/
def DriverInfo.get? (i : DriverInfo) (k : String) : Option Val :=
  (i.fields.find? (fun p => p.1 == k)).map (·.2)

/-- The `try` block of `_driver_team` (lines 33-38) together with the final
fallthrough: `TeamName` of the driver-info query when that call does not
raise, returns a dict, and the field exists and is truthy; `"Unknown"`
otherwise (the bare `except` turns a raise into the fallthrough). -/
def infoTeamE (infoRes : Except Unit DriverInfo) : Except Unit String :=
  match infoRes with
  | .error _ => pure "Unknown"
  | .ok info =>
    if info.isDict = true ∧ (info.get? "TeamName").isSome ∧
        pyTruthy ((info.get? "TeamName").getD .vnull) then
      pure (pyStr ((info.get? "TeamName").getD .vnull))
    else pure "Unknown"

/-- `_driver_team`: prefer the team recorded on the driver's first lap (when
the picked laps are non-empty, a `Team` column exists and its first value is
non-null); otherwise the driver-info fallback of `infoTeamE`.
Sub-operations that can raise live in `Except`. -/
def driverTeamE (laps : Frame) (infoRes : Except Unit DriverInfo) :
    Except Unit String := do
  let lapHit ←
    if laps.isEmptyF = false ∧ "Team" ∈ laps.colNames then do
      let v ← ilocFirstE laps "Team"
      pure (pdNotna v)
    else pure false
  if lapHit then do
    let v ← ilocFirstE laps "Team"
    pure (pyStr v)
  else
    infoTeamE infoRes

/-- A column named in `colNames` is found by `get?`. -/
lemma get?_isSome_of_mem (f : Frame) (c : String) (h : c ∈ f.colNames) :
    ∃ vs, f.get? c = some vs ∧ (c, vs) ∈ f.cols := by
  unfold Frame.colNames at h
  obtain ⟨p, hp, hpc⟩ := List.mem_map.mp h
  have hfind : (f.cols.find? (fun q => q.1 == c)).isSome := by
    apply List.find?_isSome.mpr
    exact ⟨p, hp, by simp [hpc]⟩
  obtain ⟨q, hq⟩ := Option.isSome_iff_exists.mp hfind
  have hqmem : q ∈ f.cols := List.mem_of_find?_eq_some hq
  have hqc : q.1 = c := by
    have := List.find?_some hq
    simpa using this
  refine ⟨q.2, ?_, ?_⟩
  · unfold Frame.get?
    rw [hq]
    rfl
  · rw [← hqc]
    exact hqmem

/-- On a well-formed non-empty frame, `iloc[0]` of a present column
succeeds. -/
lemma ilocFirstE_ok (f : Frame) (c : String) (hwf : f.wf)
    (hne : f.isEmptyF = false) (hc : c ∈ f.colNames) :
    ∃ v vs, f.get? c = some (v :: vs) := by
  obtain ⟨vs, hvs, hmem⟩ := get?_isSome_of_mem f c hc
  have hlen : vs.length = f.nrowsF := hwf _ hmem
  have hpos : f.nrowsF ≠ 0 := by
    unfold Frame.isEmptyF at hne
    simp only [Bool.or_eq_false_iff, beq_eq_false_iff_ne, ne_eq] at hne
    exact hne.2
  match vs, hlen with
  | v :: vs, _ => exact ⟨v, vs, hvs⟩
  | [], h0 => exact absurd h0.symm hpos

end TelemetryXF1

namespace TelemetryXF1

@[simp] lemma exceptBind_ok {α β : Type} (a : α) (f : α → Except Unit β) :
    (Except.ok a : Except Unit α) >>= f = f a := rfl

@[simp] lemma exceptBind_err {α β : Type} (f : α → Except Unit β) :
    (Except.error () : Except Unit α) >>= f = .error () := rfl

@[simp] lemma exceptPure_eq {α : Type} (a : α) :
    (pure a : Except Unit α) = .ok a := rfl

/-- `iloc[0]` of a column whose cells are known. -/
lemma ilocFirstE_eq {f : Frame} {c : String} {v : Val} {vs : List Val}
    (h : f.get? c = some (v :: vs)) : ilocFirstE f c = .ok v := by
  unfold ilocFirstE
  rw [h]
  rfl

/-- First cell of the `Team` column (null when the column is absent or
empty). -/
def firstTeamVal (laps : Frame) : Val :=
  ((laps.get? "Team").getD []).headD .vnull

/-- The lap-level branch condition of `_driver_team`: picked laps non-empty,
a `Team` column present, first `Team` cell non-null. -/
def lapTeamHit (laps : Frame) : Prop :=
  laps.isEmptyF = false ∧ "Team" ∈ laps.colNames ∧ pdNotna (firstTeamVal laps) = true

/-- The driver-info branch condition of `_driver_team`: the query result is a
dict whose `TeamName` entry exists and is truthy. -/
def infoTeamHit (info : DriverInfo) : Prop :=
  info.isDict = true ∧ (info.get? "TeamName").isSome ∧
    pyTruthy ((info.get? "TeamName").getD .vnull) = true

/-- A raised driver-info query falls through to `"Unknown"`. -/
lemma infoTeamE_err : infoTeamE (.error ()) = .ok "Unknown" := rfl

/-- A successful driver-info query with a usable `TeamName` returns it. -/
lemma infoTeamE_ok_hit (info : DriverInfo) (h : infoTeamHit info) :
    infoTeamE (.ok info) = .ok (pyStr ((info.get? "TeamName").getD .vnull)) := by
  simp only [infoTeamE]
  rw [if_pos ⟨h.1, by simpa using h.2.1, h.2.2⟩]
  rfl

/-- A successful driver-info query without a usable `TeamName` falls through
to `"Unknown"`. -/
lemma infoTeamE_ok_miss (info : DriverInfo) (h : ¬ infoTeamHit info) :
    infoTeamE (.ok info) = .ok "Unknown" := by
  simp only [infoTeamE]
  rw [if_neg]
  · rfl
  · intro hc
    exact h ⟨hc.1, by simpa using hc.2.1, hc.2.2⟩

/-- The driver-info fallback never raises. -/
lemma infoTeamE_total (infoRes : Except Unit DriverInfo) :
    ∃ s, infoTeamE infoRes = .ok s := by
  match infoRes with
  | .error () => exact ⟨"Unknown", infoTeamE_err⟩
  | .ok info =>
    by_cases h : infoTeamHit info
    · exact ⟨_, infoTeamE_ok_hit info h⟩
    · exact ⟨_, infoTeamE_ok_miss info h⟩

end TelemetryXF1

namespace TelemetryXF1

/-- When the empty/column guard passes and the first `Team` cell is known,
`_driver_team` reduces to a null test on that cell. -/
lemma driverTeamE_guard_true (laps : Frame) (infoRes : Except Unit DriverInfo)
    (hg : laps.isEmptyF = false ∧ "Team" ∈ laps.colNames)
    (v : Val) (vs : List Val) (hv : laps.get? "Team" = some (v :: vs)) :
    driverTeamE laps infoRes =
      if pdNotna v then .ok (pyStr v) else infoTeamE infoRes := by
  simp only [driverTeamE, if_pos hg, ilocFirstE_eq hv, exceptBind_ok, exceptPure_eq]

/-- When the empty/column guard fails, `_driver_team` reduces to the
driver-info fallback. -/
lemma driverTeamE_guard_false (laps : Frame) (infoRes : Except Unit DriverInfo)
    (hg : ¬ (laps.isEmptyF = false ∧ "Team" ∈ laps.colNames)) :
    driverTeamE laps infoRes = infoTeamE infoRes := by
  simp only [driverTeamE, if_neg hg, exceptPure_eq, exceptBind_ok]
  simp

/-- **C2**: `_driver_team` returns the team on the driver's first lap when
the picked laps are non-empty, a `Team` column exists and its first value is
non-null; otherwise the `TeamName` of the driver-info query when that call
succeeds with a usable value; otherwise the literal `"Unknown"` — and it
never raises. -/
theorem c2_driver_team (laps : Frame) (infoRes : Except Unit DriverInfo)
    (hwf : laps.wf) :
    (∃ s, driverTeamE laps infoRes = .ok s) ∧
    (lapTeamHit laps → driverTeamE laps infoRes = .ok (pyStr (firstTeamVal laps))) ∧
    (¬ lapTeamHit laps → infoRes = .error () →
      driverTeamE laps infoRes = .ok "Unknown") ∧
    (∀ info, ¬ lapTeamHit laps → infoRes = .ok info → infoTeamHit info →
      driverTeamE laps infoRes = .ok (pyStr ((info.get? "TeamName").getD .vnull))) ∧
    (∀ info, ¬ lapTeamHit laps → infoRes = .ok info → ¬ infoTeamHit info →
      driverTeamE laps infoRes = .ok "Unknown") := by
  by_cases hg : laps.isEmptyF = false ∧ "Team" ∈ laps.colNames
  · obtain ⟨v, vs, hv⟩ := ilocFirstE_ok laps "Team" hwf hg.1 hg.2
    have hfv : firstTeamVal laps = v := by
      unfold firstTeamVal
      rw [hv]
      rfl
    have hred := driverTeamE_guard_true laps infoRes hg v vs hv
    by_cases hnn : pdNotna v = true
    · have hres : driverTeamE laps infoRes = .ok (pyStr v) := by
        rw [hred, if_pos hnn]
      have hhit : lapTeamHit laps := ⟨hg.1, hg.2, by rw [hfv]; exact hnn⟩
      exact ⟨⟨_, hres⟩, fun _ => by rw [hres, hfv],
        fun hno _ => absurd hhit hno,
        fun info hno _ _ => absurd hhit hno,
        fun info hno _ _ => absurd hhit hno⟩
    · have hres : driverTeamE laps infoRes = infoTeamE infoRes := by
        rw [hred, if_neg hnn]
      have hnohit : ¬ lapTeamHit laps := by
        intro hh
        apply hnn
        rw [← hfv]
        exact hh.2.2
      refine ⟨?_, fun hh => absurd hh hnohit, ?_, ?_, ?_⟩
      · obtain ⟨s, hs⟩ := infoTeamE_total infoRes
        exact ⟨s, by rw [hres, hs]⟩
      · intro _ herr
        rw [hres, herr, infoTeamE_err]
      · intro info _ hok hih
        rw [hres, hok, infoTeamE_ok_hit info hih]
      · intro info _ hok hih
        rw [hres, hok, infoTeamE_ok_miss info hih]
  · have hres : driverTeamE laps infoRes = infoTeamE infoRes :=
      driverTeamE_guard_false laps infoRes hg
    have hnohit : ¬ lapTeamHit laps := fun hh => hg ⟨hh.1, hh.2.1⟩
    refine ⟨?_, fun hh => absurd hh hnohit, ?_, ?_, ?_⟩
    · obtain ⟨s, hs⟩ := infoTeamE_total infoRes
      exact ⟨s, by rw [hres, hs]⟩
    · intro _ herr
      rw [hres, herr, infoTeamE_err]
    · intro info _ hok hih
      rw [hres, hok, infoTeamE_ok_hit info hih]
    · intro info _ hok hih
      rw [hres, hok, infoTeamE_ok_miss info hih]

/-- Instantiation of `c2_driver_team` on a concrete laps frame (one lap with
team "Ferrari") and a raising driver-info query. -/
theorem c2_driver_team_witness :
    driverTeamE ⟨[("Team", [Val.vStr "Ferrari"])]⟩ (.error ()) = .ok "Ferrari" := by
  have hwf : (⟨[("Team", [Val.vStr "Ferrari"])]⟩ : Frame).wf := by
    intro p hp
    simp only [List.mem_singleton] at hp
    subst hp
    rfl
  have h := (c2_driver_team ⟨[("Team", [Val.vStr "Ferrari"])]⟩ (.error ()) hwf).2.1
  have hhit : lapTeamHit ⟨[("Team", [Val.vStr "Ferrari"])]⟩ := by
    refine ⟨rfl, ?_, rfl⟩
    simp [Frame.colNames]
  have := h hhit
  simpa [firstTeamVal, Frame.get?, pyStr] using this

end TelemetryXF1

/-! ### Telemetry loading (`load_lap_telemetry`, lines 50-55) and the
alignment step (`show_delta`, lines 96-102) -/

namespace TelemetryXF1

/-- Truncation of a rational toward zero, the rounding of `astype(int)` on a
float. -/
def ratTruncInt (q : ℚ) : Int :=
  if 0 ≤ q then Int.floor q else -Int.floor (-q)

/-- `astype(int)` on one cell: booleans to 0/1, integers unchanged, floats
truncated toward zero; a null raises (pandas cannot cast NaN to int), and a
string cell is out of scope for this numeric channel (the provider's brake
channel is never a string) and is modelled as a raise as well. -/
def astypeIntV : Val → Option Val
  | .vBool b => some (.vInt (if b then 1 else 0))
  | .vInt n => some (.vInt n)
  | .vRat q => some (.vInt (ratTruncInt q))
  | .vnull => none
  | .vStr _ => none

/-- `tel["Brake"].astype(int)` on the whole column followed by the column
assignment: raises when some cell cannot be cast. -/
def castBrakeE (tel : Frame) (vs : List Val) : Except Unit Frame :=
  match vs.mapM astypeIntV with
  | none => .error ()
  | some vs2 => .ok (tel.setCol "Brake" vs2)

/-- `load_lap_telemetry`: the lap's telemetry, reindexed (`reset_index(drop=True)`
is the identity of this index-free model), with the `Brake` column cast to
int when present. -/
def loadLapTelemetry (tel : Frame) : Except Unit Frame :=
  if "Brake" ∈ tel.colNames then
    match tel.get? "Brake" with
    | none => .error ()
    | some vs => castBrakeE tel vs
  else .ok tel

/-- The alignment step of the render pass (lines 96-102): when delta mode is
on, use the provider's `delta_time` result, falling back to copies of each
side's own unaligned telemetry when that call raises; when delta mode is
off, use the copies directly.  `alignRes` is the provider call's outcome. -/
def alignStep (showDelta : Bool) (alignRes : Except Unit (Frame × Frame))
    (telA telB : Frame) : Frame × Frame :=
  if showDelta then
    match alignRes with
    | .ok (ta, tb) => (ta, tb)
    | .error _ => (telA.copyF, telB.copyF)
  else (telA.copyF, telB.copyF)

/-- `setCol` keeps the column names. -/
lemma setCol_colNames (f : Frame) (c : String) (vs : List Val) :
    (f.setCol c vs).colNames = f.colNames := by
  unfold Frame.setCol Frame.colNames
  simp only [List.map_map]
  apply List.map_congr_left
  intro p _
  by_cases h : p.1 = c
  · simp [h]
  · simp [h]

/-- `setCol` keeps every other column's cells. -/
lemma get?_setCol_ne (f : Frame) (c c2 : String) (vs : List Val)
    (h : c2 ≠ c) : (f.setCol c vs).get? c2 = f.get? c2 := by
  unfold Frame.setCol Frame.get?
  induction f.cols with
  | nil => rfl
  | cons p ps ih =>
    simp only [List.map_cons]
    by_cases hp : p.1 = c
    · have hpb : (p.1 == c) = true := by simpa using hp
      have h2 : ¬ ((p.1 == c2) = true) := by
        simp only [beq_iff_eq]
        intro hx
        apply h
        rw [← hx, hp]
      rw [if_pos hpb]
      rw [@List.find?_cons_of_neg _ (fun q => q.1 == c2) (p.1, vs) _ h2,
        @List.find?_cons_of_neg _ (fun q => q.1 == c2) p _ h2]
      exact ih
    · have hpb : (p.1 == c) ≠ true := by simpa using hp
      rw [if_neg hpb]
      by_cases hc2 : p.1 = c2
      · have hb : (p.1 == c2) = true := by simpa using hc2
        rw [@List.find?_cons_of_pos _ (fun q => q.1 == c2) p _ hb,
          @List.find?_cons_of_pos _ (fun q => q.1 == c2) p _ hb]
      · have hb : ¬ ((p.1 == c2) = true) := by simpa using hc2
        rw [@List.find?_cons_of_neg _ (fun q => q.1 == c2) p _ hb,
          @List.find?_cons_of_neg _ (fun q => q.1 == c2) p _ hb]
        exact ih

/-- `setCol` of a present column replaces its cells. -/
lemma get?_setCol_self (f : Frame) (c : String) (vs vs0 : List Val)
    (h : f.get? c = some vs0) : (f.setCol c vs).get? c = some vs := by
  unfold Frame.setCol Frame.get?
  unfold Frame.get? at h
  revert h
  induction f.cols with
  | nil =>
    intro h
    simp at h
  | cons p ps ih =>
    intro h
    simp only [List.map_cons]
    by_cases hp : p.1 = c
    · have hpb : (p.1 == c) = true := by simpa using hp
      rw [if_pos hpb]
      rw [@List.find?_cons_of_pos _ (fun q => q.1 == c) (p.1, vs) _ hpb]
      rfl
    · have hpb : ¬ ((p.1 == c) = true) := by simpa using hp
      rw [if_neg hpb]
      rw [@List.find?_cons_of_neg _ (fun q => q.1 == c) p _ hpb]
      rw [@List.find?_cons_of_neg _ (fun q => q.1 == c) p _ hpb] at h
      exact ih h

end TelemetryXF1

namespace TelemetryXF1

/-- `mapM` over `Option` preserves length. -/
lemma mapM_option_length {α β : Type} (f : α → Option β) (l : List α) :
    ∀ l2, l.mapM f = some l2 → l2.length = l.length := by
  induction l with
  | nil =>
    intro l2 h
    simp only [List.mapM_nil] at h
    cases h
    rfl
  | cons a as ih =>
    intro l2 h
    rw [List.mapM_cons] at h
    match hfa : f a with
    | none => rw [hfa] at h; simp at h
    | some b =>
      rw [hfa] at h
      match hm : as.mapM f with
      | none => rw [hm] at h; simp at h
      | some bs =>
        rw [hm] at h
        have h3 : b :: bs = l2 := by simpa using h
        rw [← h3]
        simp [ih bs hm]

/-- Replacing a column's cells by a list of the same length keeps the row
count. -/
lemma setCol_nrows_eq (f : Frame) (c : String) (vs vs0 : List Val)
    (hg : f.get? c = some vs0) (hlen : vs.length = vs0.length) :
    (f.setCol c vs).nrowsF = f.nrowsF := by
  obtain ⟨cols⟩ := f
  cases cols with
  | nil => rfl
  | cons p ps =>
    by_cases hp : p.1 = c
    · have hpb : (p.1 == c) = true := by simpa using hp
      unfold Frame.get? at hg
      rw [@List.find?_cons_of_pos _ (fun q => q.1 == c) p _ hpb] at hg
      have hg2 : p.2 = vs0 := by simpa using hg
      have hcols : (Frame.setCol ⟨p :: ps⟩ c vs).cols =
          (p.1, vs) :: (List.map (fun q => if q.1 == c then (q.1, vs) else q) ps) := by
        unfold Frame.setCol
        simp only [List.map_cons]
        rw [if_pos hpb]
      unfold Frame.nrowsF
      rw [hcols]
      show vs.length = p.2.length
      rw [hg2, hlen]
    · have hpb : ¬ ((p.1 == c) = true) := by simpa using hp
      unfold Frame.setCol Frame.nrowsF
      simp only [List.map_cons]
      rw [if_neg hpb]

/-- `load_lap_telemetry` keeps the column names. -/
lemma loadLapTelemetry_colNames (tel out : Frame)
    (h : loadLapTelemetry tel = .ok out) : out.colNames = tel.colNames := by
  unfold loadLapTelemetry at h
  by_cases hb : "Brake" ∈ tel.colNames
  · rw [if_pos hb] at h
    split at h
    · simp at h
    · rename_i vs hg
      unfold castBrakeE at h
      split at h
      · simp at h
      · rename_i vs2 hm
        injection h with h2
        rw [← h2]
        exact setCol_colNames tel "Brake" vs2
  · rw [if_neg hb] at h
    injection h with h2
    rw [← h2]

/-- `load_lap_telemetry` keeps the row count and therefore emptiness. -/
lemma loadLapTelemetry_isEmpty (tel out : Frame)
    (h : loadLapTelemetry tel = .ok out) : out.isEmptyF = tel.isEmptyF := by
  unfold loadLapTelemetry at h
  by_cases hb : "Brake" ∈ tel.colNames
  · rw [if_pos hb] at h
    split at h
    · simp at h
    · rename_i vs hg
      unfold castBrakeE at h
      split at h
      · simp at h
      · rename_i vs2 hm
        injection h with h2
        rw [← h2]
        unfold Frame.isEmptyF
        rw [setCol_nrows_eq tel "Brake" vs2 vs hg (mapM_option_length _ _ _ hm)]
        have hcols : (tel.setCol "Brake" vs2).cols.isEmpty = tel.cols.isEmpty := by
          unfold Frame.setCol
          cases tel.cols with
          | nil => rfl
          | cons p ps => rfl
        rw [hcols]
  · rw [if_neg hb] at h
    injection h with h2
    rw [← h2]

/-- **C3**: with delta mode on and a raising provider alignment call, both
rendered sides fall back to copies of their own unaligned telemetry, each
non-empty whenever the corresponding source lap telemetry is non-empty; with
delta mode off, both sides are copies of their own unaligned telemetry for
every provider outcome. -/
theorem c3_align_fallback (rawA rawB telA telB : Frame)
    (hA : loadLapTelemetry rawA = .ok telA)
    (hB : loadLapTelemetry rawB = .ok telB) :
    (alignStep true (.error ()) telA telB = (telA.copyF, telB.copyF) ∧
      (rawA.isEmptyF = false →
        (alignStep true (.error ()) telA telB).1.isEmptyF = false) ∧
      (rawB.isEmptyF = false →
        (alignStep true (.error ()) telA telB).2.isEmptyF = false)) ∧
    (∀ r, alignStep false r telA telB = (telA.copyF, telB.copyF)) := by
  refine ⟨⟨rfl, ?_, ?_⟩, fun r => rfl⟩
  · intro hne
    show telA.isEmptyF = false
    rw [loadLapTelemetry_isEmpty rawA telA hA]
    exact hne
  · intro hne
    show telB.isEmptyF = false
    rw [loadLapTelemetry_isEmpty rawB telB hB]
    exact hne

/-- Instantiation of `c3_align_fallback` on a concrete one-row telemetry
frame. -/
theorem c3_align_fallback_witness :
    alignStep true (.error ()) (⟨[("Speed", [Val.vInt 300])]⟩ : Frame)
        ⟨[("Speed", [Val.vInt 300])]⟩ =
      ((⟨[("Speed", [Val.vInt 300])]⟩ : Frame).copyF,
       (⟨[("Speed", [Val.vInt 300])]⟩ : Frame).copyF) ∧
    (alignStep true (.error ()) (⟨[("Speed", [Val.vInt 300])]⟩ : Frame)
        ⟨[("Speed", [Val.vInt 300])]⟩).1.isEmptyF = false := by
  have hload : loadLapTelemetry ⟨[("Speed", [Val.vInt 300])]⟩ =
      .ok ⟨[("Speed", [Val.vInt 300])]⟩ := by decide
  have h := c3_align_fallback _ _ _ _ hload hload
  exact ⟨h.1.1, h.1.2.1 (by decide)⟩

end TelemetryXF1

namespace TelemetryXF1

/-- "Every `Brake` cell is 0 or 1" on a frame (vacuous without a `Brake`
column). -/
def brakeAll01 (f : Frame) : Bool :=
  ((f.get? "Brake").getD []).all
    (fun v => decide (v = Val.vInt 0) || decide (v = Val.vInt 1))

/-- **C4, counterexample**: a native integer brake cell of value 2 passes
`astype(int)` unchanged, so the loaded frame's `Brake` column is not 0/1:
the claim fails for non-boolean native representations. -/
theorem c4_counterexample :
    "Brake" ∈ (⟨[("Brake", [Val.vInt 2])]⟩ : Frame).colNames ∧
    loadLapTelemetry ⟨[("Brake", [Val.vInt 2])]⟩ =
      .ok ⟨[("Brake", [Val.vInt 2])]⟩ ∧
    brakeAll01 ⟨[("Brake", [Val.vInt 2])]⟩ = false := by
  decide

/-- Reduce `load_lap_telemetry` when the `Brake` column is present. -/
lemma loadLapTelemetry_reduce (tel : Frame) (vs : List Val)
    (hb : "Brake" ∈ tel.colNames) (hvs : tel.get? "Brake" = some vs) :
    loadLapTelemetry tel = castBrakeE tel vs := by
  unfold loadLapTelemetry
  rw [if_pos hb]
  split
  · rename_i hnone
    rw [hvs] at hnone
    cases hnone
  · rename_i vs3 hsome
    rw [hvs] at hsome
    injection hsome with he
    rw [he]

/-- Reduce the brake cast when every cell casts. -/
lemma castBrakeE_reduce (tel : Frame) (vs vs2 : List Val)
    (hm : vs.mapM astypeIntV = some vs2) :
    castBrakeE tel vs = .ok (tel.setCol "Brake" vs2) := by
  unfold castBrakeE
  split
  · rename_i hnone
    rw [hm] at hnone
    cases hnone
  · rename_i ws hsome
    rw [hm] at hsome
    injection hsome with he
    rw [he]

/-- `astype(int)` of an all-boolean cell list succeeds and lands in 0/1. -/
lemma mapM_astype_bool (vs : List Val)
    (h : ∀ v ∈ vs, ∃ b, v = Val.vBool b) :
    ∃ vs2, vs.mapM astypeIntV = some vs2 ∧
      ∀ w ∈ vs2, w = Val.vInt 0 ∨ w = Val.vInt 1 := by
  induction vs with
  | nil => exact ⟨[], rfl, by simp⟩
  | cons v vs ih =>
    obtain ⟨b, rfl⟩ := h v (List.mem_cons_self v vs)
    obtain ⟨vs2, hm, hall⟩ := ih (fun x hx => h x (List.mem_cons_of_mem _ hx))
    refine ⟨Val.vInt (if b then 1 else 0) :: vs2, ?_, ?_⟩
    · rw [List.mapM_cons, hm]
      simp [astypeIntV]
    · intro w hw
      rcases List.mem_cons.mp hw with h1 | h2
      · subst h1
        cases b
        · left; rfl
        · right; rfl
      · exact hall w h2

/-- **C4, amended**: for every lap telemetry frame with a `Brake` column
whose native cells are booleans (the provider's actual representation), the
load succeeds and every `Brake` cell of the returned frame is exactly 0
or 1. -/
theorem c4_brake01_of_bool (tel : Frame)
    (hb : "Brake" ∈ tel.colNames)
    (hbool : ∀ v ∈ (tel.get? "Brake").getD [], ∃ b, v = Val.vBool b) :
    ∃ out, loadLapTelemetry tel = .ok out ∧ brakeAll01 out = true := by
  obtain ⟨vs, hvs, _⟩ := get?_isSome_of_mem tel "Brake" hb
  rw [hvs] at hbool
  obtain ⟨vs2, hm, hall⟩ := mapM_astype_bool vs (by simpa using hbool)
  refine ⟨tel.setCol "Brake" vs2, ?_, ?_⟩
  · rw [loadLapTelemetry_reduce tel vs hb hvs, castBrakeE_reduce tel vs vs2 hm]
  · unfold brakeAll01
    rw [get?_setCol_self tel "Brake" vs2 vs hvs]
    apply List.all_eq_true.mpr
    intro w hw
    rcases hall w (by simpa using hw) with h1 | h1
    · simp [h1]
    · simp [h1]

/-- Instantiation of `c4_brake01_of_bool` on a one-row boolean brake
column. -/
theorem c4_brake01_of_bool_witness :
    ∃ out, loadLapTelemetry ⟨[("Brake", [Val.vBool true])]⟩ = .ok out ∧
      brakeAll01 out = true := by
  apply c4_brake01_of_bool
  · decide
  · intro v hv
    refine ⟨true, ?_⟩
    have : v = Val.vBool true := by
      have hvv : v ∈ [Val.vBool true] := by
        simpa [Frame.get?] using hv
      simpa using hvv
    exact this

/-- **C8**: `load_lap_telemetry` returns a frame identical to the provider's
telemetry in every column other than `Brake`: the column names (and their
order) are unchanged, and every other column's cells (values and order) are
exactly the input's. -/
theorem c8_load_touches_only_brake (tel out : Frame)
    (h : loadLapTelemetry tel = .ok out) :
    out.colNames = tel.colNames ∧
    ∀ c, c ≠ "Brake" → out.get? c = tel.get? c := by
  refine ⟨loadLapTelemetry_colNames tel out h, ?_⟩
  intro c hc
  unfold loadLapTelemetry at h
  by_cases hb : "Brake" ∈ tel.colNames
  · rw [if_pos hb] at h
    split at h
    · simp at h
    · rename_i vs hg
      unfold castBrakeE at h
      split at h
      · simp at h
      · rename_i vs2 hm
        injection h with h2
        rw [← h2]
        exact get?_setCol_ne tel "Brake" c vs2 hc
  · rw [if_neg hb] at h
    injection h with h2
    rw [← h2]

/-- Instantiation of `c8_load_touches_only_brake` on a two-column frame. -/
theorem c8_load_touches_only_brake_witness :
    loadLapTelemetry ⟨[("Speed", [Val.vInt 300]), ("Brake", [Val.vBool true])]⟩ =
      .ok ⟨[("Speed", [Val.vInt 300]), ("Brake", [Val.vInt 1])]⟩ ∧
    (⟨[("Speed", [Val.vInt 300]), ("Brake", [Val.vInt 1])]⟩ : Frame).get? "Speed" =
      (⟨[("Speed", [Val.vInt 300]), ("Brake", [Val.vBool true])]⟩ : Frame).get? "Speed" := by
  have hload : loadLapTelemetry ⟨[("Speed", [Val.vInt 300]), ("Brake", [Val.vBool true])]⟩ =
      .ok ⟨[("Speed", [Val.vInt 300]), ("Brake", [Val.vInt 1])]⟩ := by decide
  exact ⟨hload,
    (c8_load_touches_only_brake _ _ hload).2 "Speed" (by decide)⟩

end TelemetryXF1

/-! ### Team colors (lines 109-116) -/

namespace TelemetryXF1

/-- Side A's fixed fallback color (line 112). -/
def DEFAULT_COLOR_A : String := "#1f77b4"

/-- Side B's fixed fallback color (line 116). -/
def DEFAULT_COLOR_B : String := "#ff7f0e"

/-- One `try: c = team_color(team) except: c = default` block; the provider's
`team_color` is a parameter that may raise. -/
def resolveTeamColor (teamColor : String → Except Unit String)
    (dflt team : String) : String :=
  match teamColor team with
  | .ok c => c
  | .error _ => dflt

/-- `color_a` (lines 109-112). -/
def color_a (teamColor : String → Except Unit String) (team : String) : String :=
  resolveTeamColor teamColor DEFAULT_COLOR_A team

/-- `color_b` (lines 113-116). -/
def color_b (teamColor : String → Except Unit String) (team : String) : String :=
  resolveTeamColor teamColor DEFAULT_COLOR_B team

/-- **C6**: each side's color resolution returns the provider's team color
when the lookup succeeds, and that side's fixed default when it raises; the
two defaults are distinct constants. -/
theorem c6_color_resolution (teamColor : String → Except Unit String)
    (team : String) :
    (∀ c, teamColor team = .ok c →
      color_a teamColor team = c ∧ color_b teamColor team = c) ∧
    (teamColor team = .error () →
      color_a teamColor team = DEFAULT_COLOR_A ∧
      color_b teamColor team = DEFAULT_COLOR_B) ∧
    DEFAULT_COLOR_A ≠ DEFAULT_COLOR_B := by
  refine ⟨?_, ?_, by decide⟩
  · intro c hc
    constructor
    · unfold color_a resolveTeamColor
      rw [hc]
    · unfold color_b resolveTeamColor
      rw [hc]
  · intro hc
    constructor
    · unfold color_a resolveTeamColor
      rw [hc]
    · unfold color_b resolveTeamColor
      rw [hc]

/-- Instantiation of `c6_color_resolution` on an always-raising lookup. -/
theorem c6_color_resolution_witness :
    color_a (fun _ => .error ()) "Ferrari" = DEFAULT_COLOR_A ∧
    color_b (fun _ => .error ()) "Ferrari" = DEFAULT_COLOR_B ∧
    DEFAULT_COLOR_A ≠ DEFAULT_COLOR_B := by
  have h := c6_color_resolution (fun _ => .error ()) "Ferrari"
  exact ⟨(h.2.1 rfl).1, (h.2.1 rfl).2, h.2.2⟩

end TelemetryXF1

/-! ### Track map panel (lines 155-164) -/

namespace TelemetryXF1

/-- One plotly scatter trace of the track map: x/y series, legend name,
line color. -/
structure MapTrace where
  xvals : List Val
  yvals : List Val
  nm : String
  color : String
deriving DecidableEq, Repr

/-- What the track-map panel shows: either map traces or the informational
placeholder message. -/
inductive MapPanel where
  | charts : List MapTrace → MapPanel
  | info : String → MapPanel
deriving DecidableEq, Repr

/-- Does the panel show map traces? -/
def MapPanel.isCharts : MapPanel → Bool
  | .charts _ => true
  | .info _ => false

/-- `all(k in tel.columns for k in ["X", "Y"])`. -/
def hasXYcols (f : Frame) : Bool :=
  ["X", "Y"].all (fun k => f.colNames.contains k)

/-- The track-map panel (lines 156-164): when both raw telemetry frames have
`X` and `Y` columns, two line traces of the raw positions; otherwise the
placeholder message.  Column access can raise, hence `Except`. -/
def trackMapPanel (d1 d2 ca cb : String) (telA telB : Frame) :
    Except Unit MapPanel :=
  if hasXYcols telA && hasXYcols telB then do
    let xa ← getColE telA "X"
    let ya ← getColE telA "Y"
    let xb ← getColE telB "X"
    let yb ← getColE telB "Y"
    pure (.charts [⟨xa, ya, d1, ca⟩, ⟨xb, yb, d2, cb⟩])
  else
    pure (.info "Track position data not available for this session or lap.")

/-- Modelled from the spec's words, for comparison with the code's guard:
"both selected laps have non-null X and Y columns" — the columns exist and
every cell of each is non-null. -/
def specHasNonNullXY (f : Frame) : Bool :=
  f.colNames.contains "X" && f.colNames.contains "Y" &&
  ((f.get? "X").getD []).all pdNotna && ((f.get? "Y").getD []).all pdNotna

/-- **C5, counterexample**: on a frame whose `X` and `Y` columns exist but
hold only nulls, the code renders the two map traces even though the frames
do not have non-null X/Y columns — the claimed "if and only if" fails. -/
theorem c5_counterexample :
    (trackMapPanel "A" "B" "ca" "cb" ⟨[("X", [Val.vnull]), ("Y", [Val.vnull])]⟩
        ⟨[("X", [Val.vnull]), ("Y", [Val.vnull])]⟩).map MapPanel.isCharts =
      .ok true ∧
    specHasNonNullXY ⟨[("X", [Val.vnull]), ("Y", [Val.vnull])]⟩ = false := by
  decide

/-- From the code's guard to memberships. -/
lemma hasXYcols_mem (f : Frame) (h : hasXYcols f = true) :
    "X" ∈ f.colNames ∧ "Y" ∈ f.colNames := by
  unfold hasXYcols at h
  simpa using h

/-- Column access of a present column returns its cells. -/
lemma getColE_of_mem (f : Frame) (c : String) (h : c ∈ f.colNames) :
    getColE f c = .ok ((f.get? c).getD []) := by
  obtain ⟨vs, hvs, _⟩ := get?_isSome_of_mem f c h
  unfold getColE
  rw [hvs]
  rfl

/-- **C5, amended**: the track map panel renders its two position traces,
built from the raw (non-aligned) frames' `X`/`Y` columns, exactly when both
frames contain `X` and `Y` columns (whatever the cell values); in every
other case it shows the informational placeholder and no map traces. -/
theorem c5_track_map_guard (d1 d2 ca cb : String) (telA telB : Frame) :
    ((hasXYcols telA && hasXYcols telB) = true →
      trackMapPanel d1 d2 ca cb telA telB =
        .ok (.charts
          [⟨(telA.get? "X").getD [], (telA.get? "Y").getD [], d1, ca⟩,
           ⟨(telB.get? "X").getD [], (telB.get? "Y").getD [], d2, cb⟩])) ∧
    ((hasXYcols telA && hasXYcols telB) = false →
      trackMapPanel d1 d2 ca cb telA telB =
        .ok (.info "Track position data not available for this session or lap.")) := by
  constructor
  · intro hg
    have hAB := Bool.and_eq_true .. |>.mp hg
    have hA := hasXYcols_mem telA hAB.1
    have hB := hasXYcols_mem telB hAB.2
    unfold trackMapPanel
    rw [if_pos (by rw [hg])]
    rw [getColE_of_mem telA "X" hA.1, exceptBind_ok,
      getColE_of_mem telA "Y" hA.2, exceptBind_ok,
      getColE_of_mem telB "X" hB.1, exceptBind_ok,
      getColE_of_mem telB "Y" hB.2, exceptBind_ok, exceptPure_eq]
  · intro hg
    unfold trackMapPanel
    rw [if_neg (by rw [hg]; exact Bool.false_ne_true)]
    rfl

/-- Instantiation of `c5_track_map_guard` on column-less frames: the
placeholder is shown. -/
theorem c5_track_map_guard_witness :
    trackMapPanel "A" "B" "c1" "c2" ⟨[]⟩ ⟨[]⟩ =
      .ok (.info "Track position data not available for this session or lap.") :=
  (c5_track_map_guard "A" "B" "c1" "c2" ⟨[]⟩ ⟨[]⟩).2 (by decide)

end TelemetryXF1

/-! ### Chart panels (lines 104-153): x-axis, guarded traces, scalings -/

namespace TelemetryXF1

/-- One plotly scatter trace of a chart panel: source channel, which side
(`true` = driver A), x/y series, legend name, dash style (`none` = solid),
line color. -/
structure Trace where
  channel : String
  sideA : Bool
  xvals : List Val
  yvals : List Val
  nm : String
  dash : Option String
  color : String
deriving DecidableEq, Repr

/-- Pandas `series * k` on one cell (booleans are 0/1 integers in Python;
a string cell replicates, as Python `str * int` does). -/
def pyMulVal (v : Val) (k : Int) : Val :=
  match v with
  | .vnull => .vnull
  | .vBool b => .vInt ((if b then 1 else 0) * k)
  | .vInt n => .vInt (n * k)
  | .vRat q => .vRat (q * k)
  | .vStr s => .vStr (String.join (List.replicate k.toNat s))

/-- Pandas `series / k` on one cell: true division into a float; dividing a
string raises (`TypeError`), as does `k = 0` (not reachable here, `k` is the
literal 1000). -/
def pyDivVal (v : Val) (k : Int) : Except Unit Val :=
  if k = 0 then .error ()
  else
    match v with
    | .vnull => .ok .vnull
    | .vBool b => .ok (.vRat ((if b then (1 : ℚ) else 0) / (k : ℚ)))
    | .vInt n => .ok (.vRat ((n : ℚ) / (k : ℚ)))
    | .vRat q => .ok (.vRat (q / (k : ℚ)))
    | .vStr _ => .error ()

/-- The cells the x-axis uses: the `Distance` column when present, else the
integer row index. -/
def xSeriesVals (f : Frame) : List Val :=
  if "Distance" ∈ f.colNames then (f.get? "Distance").getD []
  else (List.range f.nrowsF).map (fun i => Val.vInt i)

/-- `x = tel["Distance"] if "Distance" in tel else tel.index` (lines
104-105), with the column access in `Except`. -/
def xSeriesE (f : Frame) : Except Unit (List Val) :=
  if "Distance" ∈ f.colNames then getColE f "Distance"
  else .ok ((List.range f.nrowsF).map (fun i => Val.vInt i))

/-- One guarded `if channel in tel: fig.add_trace(...)` block: the trace is
built (and its column read) only when the source channel exists. -/
def guardTrace (f : Frame) (c : String) (mk : List Val → Except Unit Trace) :
    Except Unit (List Trace) :=
  if c ∈ f.colNames then do
    let y ← getColE f c
    let t ← mk y
    pure [t]
  else pure []

/-- The speed panel's traces (lines 120-124). -/
def fig1Traces (d1 d2 ca cb : String) (xa xb : List Val) (ta tb : Frame) :
    Except Unit (List Trace) := do
  let l1 ← guardTrace ta "Speed" (fun y => .ok ⟨"Speed", true, xa, y, d1, none, ca⟩)
  let l2 ← guardTrace tb "Speed" (fun y => .ok ⟨"Speed", false, xb, y, d2, none, cb⟩)
  pure (l1 ++ l2)

/-- The throttle/brake panel's traces (lines 129-137), in the code's order:
A throttle, A brake (×100, dashed), B throttle, B brake (×100, dashed). -/
def fig2Traces (d1 d2 ca cb : String) (xa xb : List Val) (ta tb : Frame) :
    Except Unit (List Trace) := do
  let l1 ← guardTrace ta "Throttle"
    (fun y => .ok ⟨"Throttle", true, xa, y, d1 ++ " throttle", none, ca⟩)
  let l2 ← guardTrace ta "Brake"
    (fun y => .ok ⟨"Brake", true, xa, y.map (fun v => pyMulVal v 100),
      d1 ++ " brake%", some "dash", ca⟩)
  let l3 ← guardTrace tb "Throttle"
    (fun y => .ok ⟨"Throttle", false, xb, y, d2 ++ " throttle", none, cb⟩)
  let l4 ← guardTrace tb "Brake"
    (fun y => .ok ⟨"Brake", false, xb, y.map (fun v => pyMulVal v 100),
      d2 ++ " brake%", some "dash", cb⟩)
  pure (l1 ++ l2 ++ l3 ++ l4)

/-- The gear/RPM panel's traces (lines 143-151), in the code's order:
A gear, B gear, A RPM (÷1000, dotted), B RPM (÷1000, dotted). -/
def fig3Traces (d1 d2 ca cb : String) (xa xb : List Val) (ta tb : Frame) :
    Except Unit (List Trace) := do
  let l1 ← guardTrace ta "nGear"
    (fun y => .ok ⟨"nGear", true, xa, y, d1 ++ " gear", none, ca⟩)
  let l2 ← guardTrace tb "nGear"
    (fun y => .ok ⟨"nGear", false, xb, y, d2 ++ " gear", none, cb⟩)
  let l3 ← guardTrace ta "RPM"
    (fun y => (y.mapM (fun v => pyDivVal v 1000)).map
      (fun ys => ⟨"RPM", true, xa, ys, d1 ++ " RPM x1000", some "dot", ca⟩))
  let l4 ← guardTrace tb "RPM"
    (fun y => (y.mapM (fun v => pyDivVal v 1000)).map
      (fun ys => ⟨"RPM", false, xb, ys, d2 ++ " RPM x1000", some "dot", cb⟩))
  pure (l1 ++ l2 ++ l3 ++ l4)

/-- The outputs of one render pass: the three chart panels' traces and the
track-map panel. -/
structure RenderOut where
  fig1 : List Trace
  fig2 : List Trace
  fig3 : List Trace
  trackMap : MapPanel
deriving DecidableEq, Repr

/-- The whole render pass (lines 104-164): x-axes from the (possibly
aligned) frames, the three guarded chart panels on the aligned frames, the
track map on the raw frames. -/
def renderPass (d1 d2 ca cb : String) (telA telB taAl tbAl : Frame) :
    Except Unit RenderOut := do
  let xa ← xSeriesE taAl
  let xb ← xSeriesE tbAl
  let f1 ← fig1Traces d1 d2 ca cb xa xb taAl tbAl
  let f2 ← fig2Traces d1 d2 ca cb xa xb taAl tbAl
  let f3 ← fig3Traces d1 d2 ca cb xa xb taAl tbAl
  let mp ← trackMapPanel d1 d2 ca cb telA telB
  pure ⟨f1, f2, f3, mp⟩

end TelemetryXF1

namespace TelemetryXF1

/-- The x-axis never raises: either the `Distance` cells or the row index. -/
lemma xSeriesE_ok (f : Frame) : xSeriesE f = .ok (xSeriesVals f) := by
  unfold xSeriesE xSeriesVals
  by_cases h : "Distance" ∈ f.colNames
  · rw [if_pos h, if_pos h, getColE_of_mem f "Distance" h]
  · rw [if_neg h, if_neg h]

/-- A guarded trace whose maker cannot raise: one trace when the channel is
present, none otherwise. -/
lemma guardTrace_ok_mk (f : Frame) (c : String) (g : List Val → Trace) :
    guardTrace f c (fun y => .ok (g y)) =
      .ok (if c ∈ f.colNames then [g ((f.get? c).getD [])] else []) := by
  by_cases h : c ∈ f.colNames
  · unfold guardTrace
    rw [if_pos h, if_pos h, getColE_of_mem f c h, exceptBind_ok, exceptBind_ok]
    rfl
  · unfold guardTrace
    rw [if_neg h, if_neg h]
    rfl

/-- Dividing a non-string cell by 1000 never raises. -/
lemma pyDivVal_ok_of_nonstr (v : Val) (h : ∀ s, v ≠ Val.vStr s) :
    ∃ w, pyDivVal v 1000 = .ok w := by
  unfold pyDivVal
  rw [if_neg (by norm_num)]
  cases v with
  | vnull => exact ⟨_, rfl⟩
  | vBool b => exact ⟨_, rfl⟩
  | vInt n => exact ⟨_, rfl⟩
  | vRat q => exact ⟨_, rfl⟩
  | vStr s => exact absurd rfl (h s)

/-- Dividing a list of non-string cells by 1000 never raises. -/
lemma mapM_pyDiv_ok (vs : List Val) (h : ∀ v ∈ vs, ∀ s, v ≠ Val.vStr s) :
    ∃ ws, vs.mapM (fun v => pyDivVal v 1000) = .ok ws := by
  induction vs with
  | nil => exact ⟨[], rfl⟩
  | cons v vs ih =>
    obtain ⟨ws, hws⟩ := ih (fun x hx => h x (List.mem_cons_of_mem _ hx))
    obtain ⟨w, hw⟩ := pyDivVal_ok_of_nonstr v (h v (List.mem_cons_self v vs))
    refine ⟨w :: ws, ?_⟩
    rw [List.mapM_cons]
    simp only [hw, hws, exceptBind_ok, exceptPure_eq]

/-- A guarded trace whose maker divides its cells by 1000: one trace (with
the divided cells) when the channel is present, none otherwise. -/
lemma guardTrace_divmk (f : Frame) (c : String) (g : List Val → Trace)
    (hnum : ∀ v ∈ (f.get? c).getD [], ∀ s, v ≠ Val.vStr s) :
    ∃ ys, ((f.get? c).getD []).mapM (fun v => pyDivVal v 1000) = .ok ys ∧
      guardTrace f c
          (fun y => (y.mapM (fun v => pyDivVal v 1000)).map g) =
        .ok (if c ∈ f.colNames then [g ys] else []) := by
  obtain ⟨ys, hys⟩ := mapM_pyDiv_ok _ hnum
  refine ⟨ys, hys, ?_⟩
  by_cases h : c ∈ f.colNames
  · unfold guardTrace
    rw [if_pos h, if_pos h, getColE_of_mem f c h, exceptBind_ok]
    show (((f.get? c).getD []).mapM (fun v => pyDivVal v 1000)).map g >>=
        (fun t => pure [t]) = Except.ok [g ys]
    rw [hys]
    rfl
  · unfold guardTrace
    rw [if_neg h, if_neg h]
    rfl

/-- Normal form of the speed panel. -/
lemma fig1Traces_eq (d1 d2 ca cb : String) (xa xb : List Val) (ta tb : Frame) :
    fig1Traces d1 d2 ca cb xa xb ta tb = .ok (
      (if "Speed" ∈ ta.colNames then
        [⟨"Speed", true, xa, (ta.get? "Speed").getD [], d1, none, ca⟩] else []) ++
      (if "Speed" ∈ tb.colNames then
        [⟨"Speed", false, xb, (tb.get? "Speed").getD [], d2, none, cb⟩] else [])) := by
  unfold fig1Traces
  rw [guardTrace_ok_mk, exceptBind_ok, guardTrace_ok_mk, exceptBind_ok, exceptPure_eq]

/-- Normal form of the throttle/brake panel. -/
lemma fig2Traces_eq (d1 d2 ca cb : String) (xa xb : List Val) (ta tb : Frame) :
    fig2Traces d1 d2 ca cb xa xb ta tb = .ok (
      (if "Throttle" ∈ ta.colNames then
        [⟨"Throttle", true, xa, (ta.get? "Throttle").getD [], d1 ++ " throttle", none, ca⟩] else []) ++
      (if "Brake" ∈ ta.colNames then
        [⟨"Brake", true, xa, ((ta.get? "Brake").getD []).map (fun v => pyMulVal v 100),
          d1 ++ " brake%", some "dash", ca⟩] else []) ++
      (if "Throttle" ∈ tb.colNames then
        [⟨"Throttle", false, xb, (tb.get? "Throttle").getD [], d2 ++ " throttle", none, cb⟩] else []) ++
      (if "Brake" ∈ tb.colNames then
        [⟨"Brake", false, xb, ((tb.get? "Brake").getD []).map (fun v => pyMulVal v 100),
          d2 ++ " brake%", some "dash", cb⟩] else [])) := by
  unfold fig2Traces
  rw [guardTrace_ok_mk, exceptBind_ok, guardTrace_ok_mk, exceptBind_ok,
    guardTrace_ok_mk, exceptBind_ok, guardTrace_ok_mk, exceptBind_ok, exceptPure_eq]

/-- Normal form of the gear/RPM panel, under non-string RPM cells. -/
lemma fig3Traces_eq (d1 d2 ca cb : String) (xa xb : List Val) (ta tb : Frame)
    (hA : ∀ v ∈ (ta.get? "RPM").getD [], ∀ s, v ≠ Val.vStr s)
    (hB : ∀ v ∈ (tb.get? "RPM").getD [], ∀ s, v ≠ Val.vStr s) :
    ∃ ysA ysB,
      ((ta.get? "RPM").getD []).mapM (fun v => pyDivVal v 1000) = .ok ysA ∧
      ((tb.get? "RPM").getD []).mapM (fun v => pyDivVal v 1000) = .ok ysB ∧
      fig3Traces d1 d2 ca cb xa xb ta tb = .ok (
        (if "nGear" ∈ ta.colNames then
          [⟨"nGear", true, xa, (ta.get? "nGear").getD [], d1 ++ " gear", none, ca⟩] else []) ++
        (if "nGear" ∈ tb.colNames then
          [⟨"nGear", false, xb, (tb.get? "nGear").getD [], d2 ++ " gear", none, cb⟩] else []) ++
        (if "RPM" ∈ ta.colNames then
          [⟨"RPM", true, xa, ysA, d1 ++ " RPM x1000", some "dot", ca⟩] else []) ++
        (if "RPM" ∈ tb.colNames then
          [⟨"RPM", false, xb, ysB, d2 ++ " RPM x1000", some "dot", cb⟩] else [])) := by
  obtain ⟨ysA, hysA, hgA⟩ := guardTrace_divmk ta "RPM"
    (fun ys => ⟨"RPM", true, xa, ys, d1 ++ " RPM x1000", some "dot", ca⟩) hA
  obtain ⟨ysB, hysB, hgB⟩ := guardTrace_divmk tb "RPM"
    (fun ys => ⟨"RPM", false, xb, ys, d2 ++ " RPM x1000", some "dot", cb⟩) hB
  refine ⟨ysA, ysB, hysA, hysB, ?_⟩
  unfold fig3Traces
  rw [guardTrace_ok_mk, exceptBind_ok, guardTrace_ok_mk, exceptBind_ok,
    hgA, exceptBind_ok, hgB, exceptBind_ok, exceptPure_eq]

/-- The track-map panel never raises. -/
lemma trackMapPanel_total (d1 d2 ca cb : String) (telA telB : Frame) :
    ∃ mp, trackMapPanel d1 d2 ca cb telA telB = .ok mp := by
  by_cases hg : (hasXYcols telA && hasXYcols telB) = true
  · have hAB := Bool.and_eq_true .. |>.mp hg
    have hA := hasXYcols_mem telA hAB.1
    have hB := hasXYcols_mem telB hAB.2
    refine ⟨.charts
      [⟨(telA.get? "X").getD [], (telA.get? "Y").getD [], d1, ca⟩,
       ⟨(telB.get? "X").getD [], (telB.get? "Y").getD [], d2, cb⟩], ?_⟩
    unfold trackMapPanel
    rw [if_pos hg]
    rw [getColE_of_mem telA "X" hA.1, exceptBind_ok,
      getColE_of_mem telA "Y" hA.2, exceptBind_ok,
      getColE_of_mem telB "X" hB.1, exceptBind_ok,
      getColE_of_mem telB "Y" hB.2, exceptBind_ok, exceptPure_eq]
  · refine ⟨.info "Track position data not available for this session or lap.", ?_⟩
    unfold trackMapPanel
    rw [if_neg hg]
    rfl

/-- Membership in a guarded singleton. -/
lemma mem_ite_single {α : Type} {P : Prop} [Decidable P] {a t : α}
    (h : t ∈ (if P then [a] else ([] : List α))) : P ∧ t = a := by
  by_cases hp : P
  · rw [if_pos hp] at h
    exact ⟨hp, by simpa using h⟩
  · rw [if_neg hp] at h
    simp at h

end TelemetryXF1

namespace TelemetryXF1

/-- Frames without the column trivially have non-string cells in it. -/
lemma nonstr_of_get_none {f : Frame} {c : String} (h : f.get? c = none) :
    ∀ v ∈ (f.get? c).getD [], ∀ s, v ≠ Val.vStr s := by
  intro v hv
  rw [h] at hv
  simp at hv

/-- The render pass never raises (given non-string RPM cells, the only cells
an arithmetic step touches fallibly). -/
lemma renderPass_total (d1 d2 ca cb : String) (telA telB taAl tbAl : Frame)
    (hA : ∀ v ∈ (taAl.get? "RPM").getD [], ∀ s, v ≠ Val.vStr s)
    (hB : ∀ v ∈ (tbAl.get? "RPM").getD [], ∀ s, v ≠ Val.vStr s) :
    ∃ out, renderPass d1 d2 ca cb telA telB taAl tbAl = .ok out := by
  obtain ⟨ysA, ysB, hysA, hysB, h3⟩ :=
    fig3Traces_eq d1 d2 ca cb (xSeriesVals taAl) (xSeriesVals tbAl) taAl tbAl hA hB
  obtain ⟨mp, hmp⟩ := trackMapPanel_total d1 d2 ca cb telA telB
  unfold renderPass
  rw [xSeriesE_ok, exceptBind_ok, xSeriesE_ok, exceptBind_ok,
    fig1Traces_eq, exceptBind_ok, fig2Traces_eq, exceptBind_ok,
    h3, exceptBind_ok, hmp, exceptBind_ok, exceptPure_eq]
  exact ⟨_, rfl⟩

/-- Every chart trace of a successful render pass is guarded by its channel's
presence and carries its side's x-axis series. -/
lemma renderPass_traces (d1 d2 ca cb : String) (telA telB taAl tbAl : Frame)
    (hA : ∀ v ∈ (taAl.get? "RPM").getD [], ∀ s, v ≠ Val.vStr s)
    (hB : ∀ v ∈ (tbAl.get? "RPM").getD [], ∀ s, v ≠ Val.vStr s)
    (out : RenderOut)
    (hout : renderPass d1 d2 ca cb telA telB taAl tbAl = .ok out) :
    ∀ t ∈ out.fig1 ++ out.fig2 ++ out.fig3,
      t.channel ∈ (if t.sideA then taAl else tbAl).colNames ∧
      t.xvals = xSeriesVals (if t.sideA then taAl else tbAl) := by
  obtain ⟨ysA, ysB, hysA, hysB, h3⟩ :=
    fig3Traces_eq d1 d2 ca cb (xSeriesVals taAl) (xSeriesVals tbAl) taAl tbAl hA hB
  obtain ⟨mp, hmp⟩ := trackMapPanel_total d1 d2 ca cb telA telB
  unfold renderPass at hout
  rw [xSeriesE_ok, exceptBind_ok, xSeriesE_ok, exceptBind_ok,
    fig1Traces_eq, exceptBind_ok, fig2Traces_eq, exceptBind_ok,
    h3, exceptBind_ok, hmp, exceptBind_ok, exceptPure_eq] at hout
  injection hout with he
  subst he
  intro t ht
  have ht2 : t ∈
      ((if "Speed" ∈ taAl.colNames then
        [⟨"Speed", true, xSeriesVals taAl, (taAl.get? "Speed").getD [], d1, none, ca⟩] else []) ++
       (if "Speed" ∈ tbAl.colNames then
        [⟨"Speed", false, xSeriesVals tbAl, (tbAl.get? "Speed").getD [], d2, none, cb⟩] else [])) ++
      ((if "Throttle" ∈ taAl.colNames then
        [⟨"Throttle", true, xSeriesVals taAl, (taAl.get? "Throttle").getD [], d1 ++ " throttle", none, ca⟩] else []) ++
       (if "Brake" ∈ taAl.colNames then
        [⟨"Brake", true, xSeriesVals taAl, ((taAl.get? "Brake").getD []).map (fun v => pyMulVal v 100),
          d1 ++ " brake%", some "dash", ca⟩] else []) ++
       (if "Throttle" ∈ tbAl.colNames then
        [⟨"Throttle", false, xSeriesVals tbAl, (tbAl.get? "Throttle").getD [], d2 ++ " throttle", none, cb⟩] else []) ++
       (if "Brake" ∈ tbAl.colNames then
        [⟨"Brake", false, xSeriesVals tbAl, ((tbAl.get? "Brake").getD []).map (fun v => pyMulVal v 100),
          d2 ++ " brake%", some "dash", cb⟩] else [])) ++
      ((if "nGear" ∈ taAl.colNames then
        [⟨"nGear", true, xSeriesVals taAl, (taAl.get? "nGear").getD [], d1 ++ " gear", none, ca⟩] else []) ++
       (if "nGear" ∈ tbAl.colNames then
        [⟨"nGear", false, xSeriesVals tbAl, (tbAl.get? "nGear").getD [], d2 ++ " gear", none, cb⟩] else []) ++
       (if "RPM" ∈ taAl.colNames then
        [⟨"RPM", true, xSeriesVals taAl, ysA, d1 ++ " RPM x1000", some "dot", ca⟩] else []) ++
       (if "RPM" ∈ tbAl.colNames then
        [⟨"RPM", false, xSeriesVals tbAl, ysB, d2 ++ " RPM x1000", some "dot", cb⟩] else [])) := ht
  simp only [List.mem_append] at ht2
  rcases ht2 with ((h | h) | (((h | h) | h) | h)) | (((h | h) | h) | h) <;>
    · obtain ⟨hc, rfl⟩ := mem_ite_single h
      exact ⟨by simpa using hc, rfl⟩

end TelemetryXF1

namespace TelemetryXF1

/-- **C7**: the render pass succeeds for all frames (non-string RPM cells,
the provider's numeric channels), and each chart trace it emits is guarded:
its source channel exists in the corresponding (aligned) telemetry frame —
missing channels never fail the pass, they only omit traces. -/
theorem c7_guarded_render (d1 d2 ca cb : String) (telA telB taAl tbAl : Frame)
    (hA : ∀ v ∈ (taAl.get? "RPM").getD [], ∀ s, v ≠ Val.vStr s)
    (hB : ∀ v ∈ (tbAl.get? "RPM").getD [], ∀ s, v ≠ Val.vStr s) :
    ∃ out, renderPass d1 d2 ca cb telA telB taAl tbAl = .ok out ∧
      ∀ t ∈ out.fig1 ++ out.fig2 ++ out.fig3,
        t.channel ∈ (if t.sideA then taAl else tbAl).colNames := by
  obtain ⟨out, hout⟩ := renderPass_total d1 d2 ca cb telA telB taAl tbAl hA hB
  exact ⟨out, hout, fun t ht =>
    (renderPass_traces d1 d2 ca cb telA telB taAl tbAl hA hB out hout t ht).1⟩

/-- Instantiation of `c7_guarded_render`: frames missing every channel still
render (with no traces and the placeholder map). -/
theorem c7_guarded_render_witness :
    ∃ out, renderPass "A" "B" "ca" "cb" ⟨[]⟩ ⟨[]⟩ ⟨[("Speed", [Val.vInt 3])]⟩ ⟨[]⟩ =
        .ok out ∧
      ∀ t ∈ out.fig1 ++ out.fig2 ++ out.fig3,
        t.channel ∈ (if t.sideA then (⟨[("Speed", [Val.vInt 3])]⟩ : Frame)
          else ⟨[]⟩).colNames :=
  c7_guarded_render "A" "B" "ca" "cb" ⟨[]⟩ ⟨[]⟩ ⟨[("Speed", [Val.vInt 3])]⟩ ⟨[]⟩
    (nonstr_of_get_none rfl) (nonstr_of_get_none rfl)

/-- **C10**: the x-axis series of the distance-based panels is the side's
`Distance` column when present and the row index sequence otherwise (never
an error), and every emitted chart trace carries exactly that series for its
side. -/
theorem c10_x_axis_fallback (d1 d2 ca cb : String) (telA telB taAl tbAl : Frame)
    (hA : ∀ v ∈ (taAl.get? "RPM").getD [], ∀ s, v ≠ Val.vStr s)
    (hB : ∀ v ∈ (tbAl.get? "RPM").getD [], ∀ s, v ≠ Val.vStr s) :
    (("Distance" ∈ taAl.colNames →
        xSeriesE taAl = .ok ((taAl.get? "Distance").getD [])) ∧
      ("Distance" ∉ taAl.colNames →
        xSeriesE taAl = .ok ((List.range taAl.nrowsF).map (fun i => Val.vInt i)))) ∧
    (∀ out, renderPass d1 d2 ca cb telA telB taAl tbAl = .ok out →
      ∀ t ∈ out.fig1 ++ out.fig2 ++ out.fig3,
        t.xvals = xSeriesVals (if t.sideA then taAl else tbAl)) := by
  refine ⟨⟨?_, ?_⟩, ?_⟩
  · intro h
    unfold xSeriesE
    rw [if_pos h, getColE_of_mem taAl "Distance" h]
  · intro h
    unfold xSeriesE
    rw [if_neg h]
  · intro out hout t ht
    exact (renderPass_traces d1 d2 ca cb telA telB taAl tbAl hA hB out hout t ht).2

/-- Instantiation of `c10_x_axis_fallback`: a two-row frame without a
`Distance` column gets the index x-axis `[0, 1]`. -/
theorem c10_x_axis_fallback_witness :
    xSeriesE ⟨[("Speed", [Val.vInt 3, Val.vInt 4])]⟩ =
      .ok [Val.vInt 0, Val.vInt 1] := by
  have h := (c10_x_axis_fallback "A" "B" "ca" "cb" ⟨[]⟩ ⟨[]⟩
    ⟨[("Speed", [Val.vInt 3, Val.vInt 4])]⟩ ⟨[]⟩
    (nonstr_of_get_none rfl) (nonstr_of_get_none rfl)).1.2 (by decide)
  rw [h]
  rfl

end TelemetryXF1

namespace TelemetryXF1

/-- **C9**: in the throttle/brake panel every brake trace is dashed and plots
the brake channel multiplied by 100 (values 0 or 100 when the channel is
0/1); in the gear/RPM panel every RPM trace is dotted and plots the RPM
channel divided by 1000. -/
theorem c9_scaled_styles (d1 d2 ca cb : String) (xa xb : List Val)
    (ta tb : Frame)
    (hA : ∀ v ∈ (ta.get? "RPM").getD [], ∀ s, v ≠ Val.vStr s)
    (hB : ∀ v ∈ (tb.get? "RPM").getD [], ∀ s, v ≠ Val.vStr s) :
    (∀ out2, fig2Traces d1 d2 ca cb xa xb ta tb = .ok out2 →
      ∀ t ∈ out2, t.channel = "Brake" →
        t.dash = some "dash" ∧
        t.yvals = (((if t.sideA then ta else tb).get? "Brake").getD []).map
          (fun v => pyMulVal v 100) ∧
        ((∀ v ∈ ((if t.sideA then ta else tb).get? "Brake").getD [],
            v = Val.vInt 0 ∨ v = Val.vInt 1) →
          ∀ w ∈ t.yvals, w = Val.vInt 0 ∨ w = Val.vInt 100)) ∧
    (∀ out3, fig3Traces d1 d2 ca cb xa xb ta tb = .ok out3 →
      ∀ t ∈ out3, t.channel = "RPM" →
        t.dash = some "dot" ∧
        (((if t.sideA then ta else tb).get? "RPM").getD []).mapM
          (fun v => pyDivVal v 1000) = .ok t.yvals) := by
  constructor
  · intro out2 hout2
    rw [fig2Traces_eq] at hout2
    injection hout2 with he
    subst he
    intro t ht hch
    simp only [List.mem_append] at ht
    rcases ht with ((h | h) | h) | h
    · obtain ⟨hc, rfl⟩ := mem_ite_single h
      simp at hch
    · obtain ⟨hc, rfl⟩ := mem_ite_single h
      refine ⟨rfl, rfl, ?_⟩
      intro hv w hw
      have hv2 : ∀ v ∈ ((ta.get? "Brake").getD []),
          v = Val.vInt 0 ∨ v = Val.vInt 1 := hv
      have hw2 : w ∈ ((ta.get? "Brake").getD []).map (fun v => pyMulVal v 100) := hw
      obtain ⟨v, hvm, rfl⟩ := List.mem_map.mp hw2
      rcases hv2 v hvm with h1 | h1
      · subst h1; left; decide
      · subst h1; right; decide
    · obtain ⟨hc, rfl⟩ := mem_ite_single h
      simp at hch
    · obtain ⟨hc, rfl⟩ := mem_ite_single h
      refine ⟨rfl, rfl, ?_⟩
      intro hv w hw
      have hv2 : ∀ v ∈ ((tb.get? "Brake").getD []),
          v = Val.vInt 0 ∨ v = Val.vInt 1 := hv
      have hw2 : w ∈ ((tb.get? "Brake").getD []).map (fun v => pyMulVal v 100) := hw
      obtain ⟨v, hvm, rfl⟩ := List.mem_map.mp hw2
      rcases hv2 v hvm with h1 | h1
      · subst h1; left; decide
      · subst h1; right; decide
  · intro out3 hout3
    obtain ⟨ysA, ysB, hysA, hysB, h3⟩ := fig3Traces_eq d1 d2 ca cb xa xb ta tb hA hB
    rw [h3] at hout3
    injection hout3 with he
    subst he
    intro t ht hch
    simp only [List.mem_append] at ht
    rcases ht with ((h | h) | h) | h
    · obtain ⟨hc, rfl⟩ := mem_ite_single h
      simp at hch
    · obtain ⟨hc, rfl⟩ := mem_ite_single h
      simp at hch
    · obtain ⟨hc, rfl⟩ := mem_ite_single h
      exact ⟨rfl, hysA⟩
    · obtain ⟨hc, rfl⟩ := mem_ite_single h
      exact ⟨rfl, hysB⟩

/-- Instantiation of `c9_scaled_styles` on a one-cell brake column: the one
dashed brake trace carries value 100. -/
theorem c9_scaled_styles_witness :
    fig2Traces "A" "B" "ca" "cb" [] [] ⟨[("Brake", [Val.vInt 1])]⟩ ⟨[]⟩ =
      .ok [⟨"Brake", true, [], [Val.vInt 100], "A brake%", some "dash", "ca"⟩] ∧
    (⟨"Brake", true, [], [Val.vInt 100], "A brake%", some "dash", "ca"⟩ : Trace).dash =
      some "dash" ∧
    ∀ w ∈ (⟨"Brake", true, [], [Val.vInt 100], "A brake%", some "dash", "ca"⟩ : Trace).yvals,
      w = Val.vInt 0 ∨ w = Val.vInt 100 := by
  have hfig : fig2Traces "A" "B" "ca" "cb" [] [] ⟨[("Brake", [Val.vInt 1])]⟩ ⟨[]⟩ =
      .ok [⟨"Brake", true, [], [Val.vInt 100], "A brake%", some "dash", "ca"⟩] := by
    decide
  have h := (c9_scaled_styles "A" "B" "ca" "cb" [] [] ⟨[("Brake", [Val.vInt 1])]⟩ ⟨[]⟩
    (nonstr_of_get_none rfl) (nonstr_of_get_none rfl)).1 _ hfig
    ⟨"Brake", true, [], [Val.vInt 100], "A brake%", some "dash", "ca"⟩
    (List.mem_singleton.mpr rfl) rfl
  exact ⟨hfig, h.1, h.2.2 (by decide)⟩

end TelemetryXF1
